import Mathlib

/-!
Verification of the metadata extraction and normalization pipeline of
`photo_evidence.py` (ФОТОТАБЛИЦА v1.0), shallowly embedded in Lean 4.

Python floats are modelled by rationals (`ℚ`); Python `round(x, 6)` and the
`"%.6f"` format both round half to even, modelled by `roundHalfEven` below.
Fallible Python code (code that may raise, with the caller catching the
exception) is modelled by `Option`-returning total functions: a `none`
result corresponds to the caught-exception path of the source.
-/

/-- Round a rational to the nearest integer, ties to even
(the rounding mode of Python `round` and of `format` with `.6f`). -/
def roundHalfEven (x : ℚ) : ℤ :=
  let f : ℤ := Int.floor x
  let r : ℚ := x - f
  if r < 1/2 then f
  else if 1/2 < r then f + 1
  else if f % 2 = 0 then f else f + 1

/-- Python `round(x, 6)`: round to 6 decimal places. -/
def round6 (x : ℚ) : ℚ := (roundHalfEven (x * 1000000) : ℚ) / 1000000

/-- Left-pad a decimal digit string of `n` to width 6 with zeros. -/
def padSix (n : ℕ) : String :=
  let s := toString n
  String.mk (List.replicate (6 - s.length) '0') ++ s

/-- Python `"%.6f" % x` on our rational model of floats: fixed-point decimal
notation with exactly six fractional digits. -/
def formatSixF (x : ℚ) : String :=
  let n : ℤ := roundHalfEven (x * 1000000)
  let sign := if n < 0 then "-" else ""
  let a : ℕ := n.natAbs
  sign ++ toString (a / 1000000) ++ "." ++ padSix (a % 1000000)

/-- A raw EXIF GPS coordinate value. The source expects a 3-tuple of
rationals (degrees, minutes, seconds); `malformed` models every other
value, on which the Python conversion raises (wrong arity when unpacking
`d, m, s = value`, non-numeric entries, a zero-denominator rational, ...). -/
inductive GpsCoordVal where
  | triple (d m s : ℚ)
  | malformed
deriving DecidableEq

/-- The GPS sub-block of the EXIF data (`gps_data` in the source): a mapping
with optional `GPSLatitude` / `GPSLongitude` 3-tuples and optional
single-character hemisphere refs. An empty Python dict is the fragment with
all four fields absent. -/
structure GpsFragment where
  GPSLatitude : Option GpsCoordVal
  GPSLongitude : Option GpsCoordVal
  GPSLatitudeRef : Option String
  GPSLongitudeRef : Option String
deriving DecidableEq

/-- `convert_to_degrees` (inner function of `get_gps_location`):
`d + m / 60.0 + s / 3600.0`. `none` models the raised exception on a
malformed value. -/
def convert_to_degrees (value : GpsCoordVal) : Option ℚ :=
  match value with
  | .triple d m s => some (d + m / 60 + s / 3600)
  | .malformed => none

/-- `get_gps_location(gps_data)`: converts EXIF GPS coordinates to decimal
degrees. Returns `none` when the fragment lacks `GPSLatitude` or
`GPSLongitude` (which covers the empty dict), negates latitude unless the
latitude ref equals "N" and longitude unless the longitude ref equals "E",
rounds to 6 decimal places, and returns `none` (after logging a warning)
when conversion raises. -/
def get_gps_location (gps_data : GpsFragment) : Option (ℚ × ℚ) :=
  match gps_data.GPSLatitude, gps_data.GPSLongitude with
  | some latVal, some lonVal =>
    match convert_to_degrees latVal, convert_to_degrees lonVal with
    | some lat0, some lon0 =>
      let lat := if gps_data.GPSLatitudeRef ≠ some "N" then -lat0 else lat0
      let lon := if gps_data.GPSLongitudeRef ≠ some "E" then -lon0 else lon0
      some (round6 lat, round6 lon)
    | _, _ => none
  | _, _ => none

/-- `get_address_from_coords(lat, lon)`: reverse geocoding. The external
service call `geolocator.reverse` is modelled by the parameter `geocode`;
`geocode lat lon = none` models every failure path (network error, timeout,
no result / `location` being `None`), all of which the source catches. On
failure the source returns the coordinates formatted with `.6f`. -/
def get_address_from_coords (geocode : ℚ → ℚ → Option String)
    (lat lon : ℚ) : String :=
  match geocode lat lon with
  | some address => address
  | none => formatSixF lat ++ ", " ++ formatSixF lon

/-- A capture timestamp (Python `datetime.datetime`, naive, second
precision as produced by `strptime` with the source's format). -/
structure DateTime where
  year : ℕ
  month : ℕ
  day : ℕ
  hour : ℕ
  minute : ℕ
  second : ℕ
deriving DecidableEq

/-- Split a character list at every occurrence of the separator. -/
def splitOnChar (sep : Char) : List Char → List (List Char)
  | [] => [[]]
  | c :: rest =>
    match splitOnChar sep rest with
    | [] => if c = sep then [[], [c]] else [[c]]
    | h :: t => if c = sep then [] :: h :: t else (c :: h) :: t

/-- Digit string to number, most significant digit first. -/
def digitsToNat (l : List Char) : ℕ :=
  l.foldl (fun a c => a * 10 + (c.toNat - 48)) 0

/-- Parse one numeric field of a `strptime` directive: between 1 and
`maxLen` decimal digits. -/
def parseField (maxLen : ℕ) (l : List Char) : Option ℕ :=
  if l ≠ [] ∧ l.length ≤ maxLen ∧ l.all Char.isDigit then
    some (digitsToNat l)
  else none

/-- Days in a month, with the Gregorian leap rule (mirrors the validation
done by Python `datetime`). -/
def daysInMonth (y m : ℕ) : ℕ :=
  if m = 2 then
    if (y % 4 = 0 ∧ y % 100 ≠ 0) ∨ y % 400 = 0 then 29 else 28
  else if m = 4 ∨ m = 6 ∨ m = 9 ∨ m = 11 then 30 else 31

/-- Model of `datetime.datetime.strptime(s, "%Y:%m:%d %H:%M:%S")`:
the two halves are separated by a single space, the fields by colons;
`%Y` takes up to 4 digits, the rest up to 2; field ranges are validated
as by the `datetime` constructor. `none` models the raised `ValueError`
(caught by the source). -/
def strptimeSource (s : String) : Option DateTime :=
  match splitOnChar ' ' s.data with
  | [dpart, tpart] =>
    match splitOnChar ':' dpart, splitOnChar ':' tpart with
    | [ys, ms, ds], [hs, mis, ss] =>
      match parseField 4 ys, parseField 2 ms, parseField 2 ds,
            parseField 2 hs, parseField 2 mis, parseField 2 ss with
      | some y, some mo, some d, some h, some mi, some sec =>
        if 1 ≤ y ∧ y ≤ 9999 ∧ 1 ≤ mo ∧ mo ≤ 12 ∧ 1 ≤ d ∧
           d ≤ daysInMonth y mo ∧ h ≤ 23 ∧ mi ≤ 59 ∧ sec ≤ 59 then
          some ⟨y, mo, d, h, mi, sec⟩
        else none
      | _, _, _, _, _, _ => none
    | _, _ => none
  | _ => none

/-- Python `a or b` on two optional strings, as used for
`exif_data.get("DateTimeOriginal") or exif_data.get("DateTime")`:
a missing key and an empty string are both falsy. -/
def pyOrStr (a b : Option String) : Option String :=
  match a with
  | some s => if s = "" then b else some s
  | none => b

/-- An image as far as the pipeline reads it, after `Image.open`
succeeded: an opaque handle for the decoded pixel buffer, the primary
EXIF directory as a tag-name/value mapping (byte values already decoded
to text; EXIF tag ids, hence the derived names, are unique within the
directory), and the GPS sub-block (tag group 0x8825), already expanded to
named fields — the empty fragment when the sub-block is absent or
`get_ifd` raised. `image.getexif()` is falsy exactly when `tags` is
empty. -/
structure ExifImage where
  pixels : ℕ
  tags : List (String × String)
  gps : GpsFragment
deriving DecidableEq

/-- The per-image record assembled by `extract_image_info` (the source's
result dict); `image` is the opaque handle of the copied pixel buffer. -/
structure PhotoRecord where
  image : ℕ
  date_taken : DateTime
  address : String
  camera_model : String
deriving DecidableEq

/-- The date-selection block of `extract_image_info` (lines 101-111):
`DateTimeOriginal` or-else `DateTime` with Python falsiness, then
`strptime`. `none` means the file is skipped. -/
def resolvedDate (tags : List (String × String)) : Option DateTime :=
  match pyOrStr (tags.lookup "DateTimeOriginal") (tags.lookup "DateTime") with
  | none => none
  | some ds => if ds = "" then none else strptimeSource ds

/-- `extract_image_info(image_path)`. The file-system read is modelled by
the argument: `none` models `Image.open` raising (unreadable file), and
`some img` the opened image. The geocoding service is threaded through as
in `get_address_from_coords`. Returns `none` (file skipped) or the
assembled record. -/
def extract_image_info (geocode : ℚ → ℚ → Option String)
    (file : Option ExifImage) : Option PhotoRecord :=
  match file with
  | none => none
  | some image =>
    if image.tags = [] then none
    else
      match pyOrStr (image.tags.lookup "DateTimeOriginal")
                    (image.tags.lookup "DateTime") with
      | none => none
      | some date_str =>
        if date_str = "" then none
        else
          match strptimeSource date_str with
          | none => none
          | some date_taken =>
            let coords := get_gps_location image.gps
            let address :=
              match coords with
              | some (la, lo) => get_address_from_coords geocode la lo
              | none => "Координаты недоступны"
            let camera_model :=
              (image.tags.lookup "Model").getD "Модель неизвестна"
            some ⟨image.pixels, date_taken, address, camera_model⟩

/-- The tuple `SUPPORTED_FORMATS` from the source, in order. -/
def SUPPORTED_FORMATS : List String :=
  [".jpg", ".jpeg", ".JPG", ".JPEG", ".heic", ".HEIF", ".heif"]

/-- Python `str.lower` restricted to what matters for extension matching
(ASCII case folding, `Char.toLower`). -/
def pyLower (s : String) : String :=
  String.mk (s.data.map Char.toLower)

/-- Python `str.endswith` with a single string argument. -/
def strEndsWith (s suffix : String) : Bool :=
  suffix.data.isSuffixOf s.data

/-- The file filter of `main` (line 191):
`f.lower().endswith(SUPPORTED_FORMATS)` — a tuple argument to `endswith`
succeeds when any listed suffix matches. -/
def photoSelected (f : String) : Bool :=
  SUPPORTED_FORMATS.any (fun ext => strEndsWith (pyLower f) ext)

/-- The timestamp key of a record, in the lexicographic order in which
Python compares `datetime` objects. -/
def DateTime.key (t : DateTime) : ℕ ×ₗ ℕ ×ₗ ℕ ×ₗ ℕ ×ₗ ℕ ×ₗ ℕ :=
  toLex (t.year, toLex (t.month, toLex (t.day,
    toLex (t.hour, toLex (t.minute, t.second)))))

/-- Chronological comparison of timestamps (Python `datetime` ordering). -/
def dtLe (a b : DateTime) : Bool :=
  decide (a.key ≤ b.key)

/-- The ordering step of `create_document` (line 141):
`photos_info.sort(key=lambda x: x["date_taken"])`. Python `list.sort` is
a stable sort (Timsort); its input/output relation is modelled by the
stable `List.mergeSort` on the same key. -/
def create_document_sortRows (photos_info : List PhotoRecord) :
    List PhotoRecord :=
  photos_info.mergeSort (fun x y => dtLe x.date_taken y.date_taken)

/-- An opened image with a valid capture date, no GPS sub-block and no
`Model` tag, used to witness C9. -/
def c9img : ExifImage :=
  ⟨7, [("DateTimeOriginal", "2022:06:15 12:00:00")],
   ⟨none, none, none, none⟩⟩

/-- The record `extract_image_info` builds from `c9img`. -/
def c9rec : PhotoRecord :=
  ⟨7, ⟨2022, 6, 15, 12, 0, 0⟩, "Координаты недоступны",
   "Модель неизвестна"⟩

/-- An opened image whose `DateTimeOriginal` tag is present but holds the
empty string, while `DateTime` holds a parseable date. -/
def c6file : ExifImage :=
  ⟨0, [("DateTimeOriginal", ""), ("DateTime", "2020:01:02 03:04:05")],
   ⟨none, none, none, none⟩⟩

/-- An opened image with a valid `DateTimeOriginal`, witnessing the
amended C6. -/
def c6wimg : ExifImage :=
  ⟨5, [("DateTimeOriginal", "2021:12:31 23:59:58")],
   ⟨none, none, none, none⟩⟩

/-! ## Helper lemmas -/

theorem roundHalfEven_nonneg {x : ℚ} (h : 0 ≤ x) : 0 ≤ roundHalfEven x := by
  simp only [roundHalfEven]
  have h0 : 0 ≤ Int.floor x := Int.floor_nonneg.mpr h
  split
  · exact h0
  · split
    · omega
    · split
      · exact h0
      · omega

theorem roundHalfEven_nonpos {x : ℚ} (h : x ≤ 0) : roundHalfEven x ≤ 0 := by
  simp only [roundHalfEven]
  have h0 : Int.floor x ≤ 0 := Int.floor_nonpos h
  split
  · exact h0
  · next hr =>
    have hfr : (1 : ℚ)/2 ≤ x - (Int.floor x : ℚ) := not_lt.mp hr
    have hlt : (Int.floor x : ℚ) < x := by linarith
    have hneg : Int.floor x < 0 := by
      have : (Int.floor x : ℚ) < 0 := lt_of_lt_of_le hlt h
      exact_mod_cast this
    split
    · omega
    · split
      · exact h0
      · omega

theorem round6_nonneg {x : ℚ} (h : 0 ≤ x) : 0 ≤ round6 x := by
  unfold round6
  apply div_nonneg _ (by norm_num)
  exact_mod_cast roundHalfEven_nonneg (mul_nonneg h (by norm_num))

theorem round6_nonpos {x : ℚ} (h : x ≤ 0) : round6 x ≤ 0 := by
  unfold round6
  apply div_nonpos_of_nonpos_of_nonneg _ (by norm_num)
  exact_mod_cast roundHalfEven_nonpos (mul_nonpos_of_nonpos_of_nonneg h (by norm_num))

/-- Evaluation of `get_gps_location` on a fragment carrying two
well-formed coordinate triples, for arbitrary hemisphere refs. -/
theorem get_gps_location_triple (d1 m1 s1 d2 m2 s2 : ℚ)
    (latRef lonRef : Option String) :
    get_gps_location ⟨some (.triple d1 m1 s1), some (.triple d2 m2 s2),
        latRef, lonRef⟩
      = some (round6 (if latRef = some "N" then d1 + m1/60 + s1/3600
                      else -(d1 + m1/60 + s1/3600)),
              round6 (if lonRef = some "E" then d2 + m2/60 + s2/3600
                      else -(d2 + m2/60 + s2/3600))) := by
  by_cases hl : latRef = some "N" <;> by_cases ho : lonRef = some "E" <;>
    simp [get_gps_location, convert_to_degrees, hl, ho]

/-! ## Claims -/

/-- C1: for every GPS fragment with both coordinate triples of
nonnegative degree/minute/second values, `get_gps_location` negates the
latitude exactly when `GPSLatitudeRef` is not the string "N" and the
longitude exactly when `GPSLongitudeRef` is not "E"; any other ref value,
an absent ref included, yields the nonpositive (negative-hemisphere)
value. -/
theorem c1_gps_sign_rule (d1 m1 s1 d2 m2 s2 : ℚ)
    (latRef lonRef : Option String)
    (hd1 : 0 ≤ d1) (hm1 : 0 ≤ m1) (hs1 : 0 ≤ s1)
    (hd2 : 0 ≤ d2) (hm2 : 0 ≤ m2) (hs2 : 0 ≤ s2) :
    get_gps_location ⟨some (.triple d1 m1 s1), some (.triple d2 m2 s2),
        latRef, lonRef⟩
      = some (round6 (if latRef = some "N" then d1 + m1/60 + s1/3600
                      else -(d1 + m1/60 + s1/3600)),
              round6 (if lonRef = some "E" then d2 + m2/60 + s2/3600
                      else -(d2 + m2/60 + s2/3600)))
    ∧ (latRef ≠ some "N" →
        round6 (-(d1 + m1/60 + s1/3600)) ≤ 0)
    ∧ (latRef = some "N" →
        0 ≤ round6 (d1 + m1/60 + s1/3600))
    ∧ (lonRef ≠ some "E" →
        round6 (-(d2 + m2/60 + s2/3600)) ≤ 0)
    ∧ (lonRef = some "E" →
        0 ≤ round6 (d2 + m2/60 + s2/3600)) := by
  have hr1 : 0 ≤ d1 + m1/60 + s1/3600 :=
    add_nonneg (add_nonneg hd1 (div_nonneg hm1 (by norm_num)))
      (div_nonneg hs1 (by norm_num))
  have hr2 : 0 ≤ d2 + m2/60 + s2/3600 :=
    add_nonneg (add_nonneg hd2 (div_nonneg hm2 (by norm_num)))
      (div_nonneg hs2 (by norm_num))
  refine ⟨get_gps_location_triple .., ?_, ?_, ?_, ?_⟩
  · exact fun _ => round6_nonpos (by linarith)
  · exact fun _ => round6_nonneg hr1
  · exact fun _ => round6_nonpos (by linarith)
  · exact fun _ => round6_nonneg hr2

/-- Witness for C1 at the fragment with latitude (10, 30, 0) ref "S" and
longitude (20, 15, 36) with the ref absent: both axes come out negated. -/
theorem c1_gps_sign_rule_witness :
    get_gps_location ⟨some (.triple 10 30 0), some (.triple 20 15 36),
        some "S", none⟩
      = some (round6 (if (some "S" : Option String) = some "N"
                      then (10 : ℚ) + 30/60 + 0/3600
                      else -((10 : ℚ) + 30/60 + 0/3600)),
              round6 (if (none : Option String) = some "E"
                      then (20 : ℚ) + 15/60 + 36/3600
                      else -((20 : ℚ) + 15/60 + 36/3600)))
    ∧ get_gps_location ⟨some (.triple 10 30 0), some (.triple 20 15 36),
        some "S", none⟩ = some (-21/2, -(2026/100)) :=
  ⟨(c1_gps_sign_rule 10 30 0 20 15 36 (some "S") none
      (by norm_num) (by norm_num) (by norm_num)
      (by norm_num) (by norm_num) (by norm_num)).1,
   by set_option maxRecDepth 10000 in with_unfolding_all decide⟩

/-- C2: for every fragment with coordinate triples (d, m, s) and refs
"N"/"E", `get_gps_location` computes each axis as d + m/60 + s/3600
rounded to 6 decimal places; in particular latitude (41, 30, 0) with ref
"N" maps to exactly 41.5. -/
theorem c2_gps_conversion_formula :
    (∀ d1 m1 s1 d2 m2 s2 : ℚ,
      get_gps_location ⟨some (.triple d1 m1 s1), some (.triple d2 m2 s2),
          some "N", some "E"⟩
        = some (round6 (d1 + m1/60 + s1/3600),
                round6 (d2 + m2/60 + s2/3600)))
    ∧ get_gps_location ⟨some (.triple 41 30 0), some (.triple 10 0 0),
        some "N", some "E"⟩ = some (83/2, 10) := by
  constructor
  · intro d1 m1 s1 d2 m2 s2
    simpa using get_gps_location_triple d1 m1 s1 d2 m2 s2
      (some "N") (some "E")
  · with_unfolding_all decide

/-- C3: `get_gps_location` is a total function into `Option` (the
caught-exception path is `none`, so no exception propagates); it returns
`none` when the fragment lacks `GPSLatitude` or `GPSLongitude` (which
covers the empty mapping), and `none` when either present coordinate
value is malformed so that conversion fails. -/
theorem c3_gps_none_on_missing_or_malformed (g : GpsFragment) :
    ((g.GPSLatitude = none ∨ g.GPSLongitude = none) →
      get_gps_location g = none)
    ∧ ((g.GPSLatitude = some .malformed ∨ g.GPSLongitude = some .malformed) →
      get_gps_location g = none) := by
  obtain ⟨lat, lon, latRef, lonRef⟩ := g
  constructor
  · rintro (h | h) <;> simp_all <;>
      cases lat <;> cases lon <;> simp_all [get_gps_location]
  · rintro (h | h) <;> simp_all <;>
      cases lat <;> cases lon <;>
      simp_all [get_gps_location, convert_to_degrees]

/-- Witness for C3: the empty mapping and a fragment whose latitude value
is malformed both yield `none`. -/
theorem c3_gps_none_witness :
    get_gps_location ⟨none, none, none, none⟩ = none
    ∧ get_gps_location ⟨some .malformed, some (.triple 1 2 3),
        some "N", some "E"⟩ = none :=
  ⟨(c3_gps_none_on_missing_or_malformed ⟨none, none, none, none⟩).1
      (Or.inl rfl),
   (c3_gps_none_on_missing_or_malformed ⟨some .malformed,
      some (.triple 1 2 3), some "N", some "E"⟩).2 (Or.inl rfl)⟩

/-- C4: for every coordinate pair and every behavior of the geocoding
service, `get_address_from_coords` returns a string (it is total, so it
never raises), and whenever the service fails the string is exactly the
coordinates formatted to 6 decimal places. -/
theorem c4_address_fallback (geocode : ℚ → ℚ → Option String)
    (lat lon : ℚ) (h : geocode lat lon = none) :
    get_address_from_coords geocode lat lon
      = formatSixF lat ++ ", " ++ formatSixF lon := by
  simp [get_address_from_coords, h]

/-- Witness for C4 at (41.5, -1.75) with the always-failing service: the
fallback string is "41.500000, -1.750000". -/
theorem c4_address_fallback_witness :
    get_address_from_coords (fun _ _ => none) (83/2) (-(7/4))
      = formatSixF (83/2) ++ ", " ++ formatSixF (-(7/4))
    ∧ formatSixF (83/2) ++ ", " ++ formatSixF (-(7/4))
      = "41.500000, -1.750000" :=
  ⟨c4_address_fallback (fun _ _ => none) (83/2) (-(7/4)) rfl,
   by with_unfolding_all decide⟩

/-- Unfolding of `extract_image_info` on an opened image with a
successfully resolved capture date. -/
theorem extract_some_eq (geocode : ℚ → ℚ → Option String) (img : ExifImage)
    (hne : img.tags ≠ []) (dt : DateTime)
    (hdt : resolvedDate img.tags = some dt) :
    extract_image_info geocode (some img) =
      some ⟨img.pixels, dt,
        (match get_gps_location img.gps with
         | some (la, lo) => get_address_from_coords geocode la lo
         | none => "Координаты недоступны"),
        (img.tags.lookup "Model").getD "Модель неизвестна"⟩ := by
  simp only [extract_image_info, if_neg hne]
  unfold resolvedDate at hdt
  cases hp : pyOrStr (img.tags.lookup "DateTimeOriginal")
      (img.tags.lookup "DateTime") with
  | none => rw [hp] at hdt; simp at hdt
  | some ds =>
    rw [hp] at hdt
    by_cases hds : ds = ""
    · simp [hds] at hdt
    · simp only [hds, if_false, reduceIte] at hdt
      simp [hds, hdt]

/-- `extract_image_info` returns `none` exactly on an unreadable file, an
empty EXIF directory, or a failed capture-date resolution. -/
theorem extract_eq_none_iff (geocode : ℚ → ℚ → Option String)
    (file : Option ExifImage) :
    extract_image_info geocode file = none ↔
      (file = none ∨ ∃ img, file = some img ∧
        (img.tags = [] ∨ resolvedDate img.tags = none)) := by
  cases file with
  | none => simp [extract_image_info]
  | some img =>
    simp only [extract_image_info, reduceCtorEq, Option.some.injEq,
      false_or]
    constructor
    · intro h
      by_cases ht : img.tags = []
      · exact ⟨img, rfl, Or.inl ht⟩
      · rw [if_neg ht] at h
        refine ⟨img, rfl, Or.inr ?_⟩
        unfold resolvedDate
        cases hp : pyOrStr (img.tags.lookup "DateTimeOriginal")
            (img.tags.lookup "DateTime") with
        | none => rfl
        | some ds =>
          rw [hp] at h
          by_cases hds : ds = ""
          · simp [hds]
          · simp only [hds, reduceIte] at h ⊢
            cases hs : strptimeSource ds with
            | none => simp [hs]
            | some dt => simp [hs] at h
    · rintro ⟨img2, heq, hcase⟩
      cases heq
      rcases hcase with ht | hrd
      · rw [if_pos ht]
      · by_cases ht : img.tags = []
        · rw [if_pos ht]
        · rw [if_neg ht]
          unfold resolvedDate at hrd
          cases hp : pyOrStr (img.tags.lookup "DateTimeOriginal")
              (img.tags.lookup "DateTime") with
          | none => rfl
          | some ds =>
            rw [hp] at hrd
            by_cases hds : ds = ""
            · simp [hds]
            · simp only [hds, reduceIte] at hrd ⊢
              simp [hrd]

/-- Inversion: any record produced by `extract_image_info` has the shape
assembled at the end of the function. -/
theorem extract_some_inv (geocode : ℚ → ℚ → Option String)
    (img : ExifImage) (r : PhotoRecord)
    (h : extract_image_info geocode (some img) = some r) :
    img.tags ≠ [] ∧ resolvedDate img.tags = some r.date_taken ∧
      r.image = img.pixels ∧
      r.address = (match get_gps_location img.gps with
        | some (la, lo) => get_address_from_coords geocode la lo
        | none => "Координаты недоступны") ∧
      r.camera_model = (img.tags.lookup "Model").getD "Модель неизвестна" := by
  have hne : img.tags ≠ [] := by
    intro ht
    rw [(extract_eq_none_iff geocode (some img)).mpr
      (Or.inr ⟨img, rfl, Or.inl ht⟩)] at h
    exact Option.noConfusion h
  cases hrd : resolvedDate img.tags with
  | none =>
    rw [(extract_eq_none_iff geocode (some img)).mpr
      (Or.inr ⟨img, rfl, Or.inr hrd⟩)] at h
    exact Option.noConfusion h
  | some dt =>
    rw [extract_some_eq geocode img hne dt hrd] at h
    have hr := Option.some.inj h
    cases hr
    exact ⟨hne, rfl, rfl, rfl, rfl⟩

/-- C5: for every input file, `extract_image_info` returns `none` exactly
in three cases — the image cannot be opened, it has no EXIF metadata, or
no parseable capture date is found — and otherwise returns a record; as a
total function into `Option` it propagates no exception to the batch. -/
theorem c5_record_builder_skip_cases (geocode : ℚ → ℚ → Option String)
    (file : Option ExifImage) :
    extract_image_info geocode file = none ↔
      (file = none ∨ ∃ img, file = some img ∧
        (img.tags = [] ∨ resolvedDate img.tags = none)) :=
  extract_eq_none_iff geocode file

/-- C9: when the GPS normalizer yields `none` the produced record's
address is the "coordinates unavailable" sentinel and the address
resolver is never consulted (the result does not depend on the geocoding
service); when the `Model` tag is absent the camera model field is the
"Model unknown" sentinel. -/
theorem c9_sentinel_fields (geocode geocode2 : ℚ → ℚ → Option String)
    (img : ExifImage) :
    (get_gps_location img.gps = none →
      (∀ r, extract_image_info geocode (some img) = some r →
        r.address = "Координаты недоступны")
      ∧ extract_image_info geocode (some img)
          = extract_image_info geocode2 (some img))
    ∧ (∀ r, extract_image_info geocode (some img) = some r →
        img.tags.lookup "Model" = none →
        r.camera_model = "Модель неизвестна") := by
  constructor
  · intro hgps
    constructor
    · intro r hr
      obtain ⟨-, -, -, haddr, -⟩ := extract_some_inv geocode img r hr
      rw [haddr, hgps]
    · by_cases hne : img.tags = []
      · rw [(extract_eq_none_iff geocode (some img)).mpr
          (Or.inr ⟨img, rfl, Or.inl hne⟩),
          (extract_eq_none_iff geocode2 (some img)).mpr
          (Or.inr ⟨img, rfl, Or.inl hne⟩)]
      · cases hrd : resolvedDate img.tags with
        | none =>
          rw [(extract_eq_none_iff geocode (some img)).mpr
            (Or.inr ⟨img, rfl, Or.inr hrd⟩),
            (extract_eq_none_iff geocode2 (some img)).mpr
            (Or.inr ⟨img, rfl, Or.inr hrd⟩)]
        | some dt =>
          rw [extract_some_eq geocode img hne dt hrd,
            extract_some_eq geocode2 img hne dt hrd]
          simp [hgps]
  · intro r hr hmodel
    obtain ⟨-, -, -, -, hmod⟩ := extract_some_inv geocode img r hr
    rw [hmod, hmodel]
    rfl

/-- Witness for C9 on `c9img`: the extraction result is independent of
the geocoding service and the produced record carries both sentinels. -/
theorem c9_sentinel_fields_witness :
    extract_image_info (fun _ _ => some "addr") (some c9img)
      = extract_image_info (fun _ _ => none) (some c9img)
    ∧ c9rec.address = "Координаты недоступны"
    ∧ c9rec.camera_model = "Модель неизвестна" :=
  ⟨((c9_sentinel_fields (fun _ _ => some "addr") (fun _ _ => none)
      c9img).1 (by decide)).2,
   ((c9_sentinel_fields (fun _ _ => some "addr") (fun _ _ => none)
      c9img).1 (by decide)).1 c9rec (by decide),
   (c9_sentinel_fields (fun _ _ => some "addr") (fun _ _ => none)
      c9img).2 c9rec (by decide) (by decide)⟩

/-- Counterexample to C6 as stated: on `c6file` the tag
`DateTimeOriginal` is present (so per the claim the timestamp must come
from it, and parsing its empty value fails, so the claim demands `none`),
yet the source falls through Python's falsy `or` to `DateTime` and
produces a record dated 2020-01-02 03:04:05. -/
theorem c6_date_fallback_counterexample :
    (c6file.tags.lookup "DateTimeOriginal" = some ""
      ∧ strptimeSource "" = none)
    ∧ extract_image_info (fun _ _ => none) (some c6file)
        = some ⟨0, ⟨2020, 1, 2, 3, 4, 5⟩, "Координаты недоступны",
            "Модель неизвестна"⟩ :=
  ⟨⟨rfl, rfl⟩, by decide⟩

/-- C6 (amended): the capture timestamp is taken from `DateTimeOriginal`,
falling back to `DateTime` when `DateTimeOriginal` is absent or holds the
empty string; the selected value is parsed with the fixed format
"%Y:%m:%d %H:%M:%S", and if no nonempty value is present or parsing
fails, the builder returns `none`. -/
theorem c6_date_fallback_amended (geocode : ℚ → ℚ → Option String)
    (img : ExifImage) (hne : img.tags ≠ []) :
    (∀ dt, resolvedDate img.tags = some dt →
      ∃ r, extract_image_info geocode (some img) = some r
        ∧ r.date_taken = dt)
    ∧ (resolvedDate img.tags = none →
        extract_image_info geocode (some img) = none)
    ∧ (∀ s, img.tags.lookup "DateTimeOriginal" = some s → s ≠ "" →
        resolvedDate img.tags = strptimeSource s)
    ∧ ((img.tags.lookup "DateTimeOriginal" = none ∨
        img.tags.lookup "DateTimeOriginal" = some "") →
        resolvedDate img.tags =
          match img.tags.lookup "DateTime" with
          | none => none
          | some t => if t = "" then none else strptimeSource t) := by
  refine ⟨?_, ?_, ?_, ?_⟩
  · intro dt hdt
    exact ⟨_, extract_some_eq geocode img hne dt hdt, rfl⟩
  · intro h
    exact (extract_eq_none_iff geocode (some img)).mpr
      (Or.inr ⟨img, rfl, Or.inr h⟩)
  · intro s hs hsne
    unfold resolvedDate
    rw [hs]
    simp [pyOrStr, hsne]
  · intro h
    unfold resolvedDate
    cases hdt : img.tags.lookup "DateTime" with
    | none => rcases h with h | h <;> rw [h] <;> simp [pyOrStr]
    | some t => rcases h with h | h <;> rw [h] <;> simp [pyOrStr]

/-- Witness for the amended C6 on `c6wimg`: the record carries the parsed
`DateTimeOriginal` timestamp. -/
theorem c6_date_fallback_amended_witness :
    ∃ r, extract_image_info (fun _ _ => none) (some c6wimg) = some r
      ∧ r.date_taken = ⟨2021, 12, 31, 23, 59, 58⟩ :=
  (c6_date_fallback_amended (fun _ _ => none) c6wimg (by decide)).1
    ⟨2021, 12, 31, 23, 59, 58⟩ (by decide)

theorem char_toNat_ofNat_lt {n : ℕ} (h : n < 55296) :
    (Char.ofNat n).toNat = n := by
  rw [Char.ofNat, dif_pos (Or.inl (by omega) : Nat.isValidChar n)]
  rfl

/-- ASCII case folding never produces a basic-latin capital letter. -/
theorem toLower_ne_of_upper (c u : Char) (h1 : 65 ≤ u.toNat)
    (h2 : u.toNat ≤ 90) : Char.toLower c ≠ u := by
  simp only [Char.toLower]
  split
  · next h =>
    intro heq
    have h3 := congrArg Char.toNat heq
    rw [char_toNat_ofNat_lt (by omega)] at h3
    omega
  · next h =>
    intro heq
    rw [heq] at h
    exact h ⟨h1, h2⟩

theorem toLower_not_upper_range (c : Char) :
    ¬(65 ≤ (Char.toLower c).toNat ∧ (Char.toLower c).toNat ≤ 90) :=
  fun h => toLower_ne_of_upper c (Char.toLower c) h.1 h.2 rfl

theorem toLower_eq_self_of_not_upper (d : Char)
    (h : ¬(65 ≤ d.toNat ∧ d.toNat ≤ 90)) : Char.toLower d = d := by
  simp only [Char.toLower]
  rw [if_neg]
  omega

theorem toLower_toLower (c : Char) :
    Char.toLower (Char.toLower c) = Char.toLower c :=
  toLower_eq_self_of_not_upper _ (toLower_not_upper_range c)

theorem pyLower_pyLower (f : String) : pyLower (pyLower f) = pyLower f := by
  unfold pyLower
  congr 1
  show (f.data.map Char.toLower).map Char.toLower = f.data.map Char.toLower
  rw [List.map_map]
  exact List.map_congr_left (fun c _ => toLower_toLower c)

theorem photoSelected_pyLower (f : String) :
    photoSelected (pyLower f) = photoSelected f := by
  simp only [photoSelected, pyLower_pyLower]

theorem pyLower_no_upper (f : String) (u : Char) (h1 : 65 ≤ u.toNat)
    (h2 : u.toNat ≤ 90) : u ∉ (pyLower f).data := by
  intro hmem
  have hmem2 : u ∈ f.data.map Char.toLower := hmem
  rcases List.mem_map.mp hmem2 with ⟨c, -, hc⟩
  exact toLower_ne_of_upper c u h1 h2 hc

/-- A suffix containing a capital letter never matches a lowercased
name. -/
theorem strEndsWith_pyLower_upper (f suf : String) (u : Char)
    (hu : u ∈ suf.data) (h1 : 65 ≤ u.toNat) (h2 : u.toNat ≤ 90) :
    strEndsWith (pyLower f) suf = false := by
  rw [Bool.eq_false_iff]
  intro h
  have hsuffix : suf.data <:+ (pyLower f).data := by
    simpa [strEndsWith] using h
  exact pyLower_no_upper f u h1 h2 (hsuffix.subset hu)

/-- C10: the orchestrator selects a filename exactly when its lowercased
form ends with ".jpg", ".jpeg", ".heic" or ".heif"; matching is therefore
case-insensitive over these four extensions (".HEIC" and ".Jpg" names are
selected) and the uppercase entries ".JPG", ".JPEG", ".HEIF" of the
configured tuple never themselves match any lowercased filename. -/
theorem c10_selection_lowercased_suffixes :
    (∀ f, photoSelected f = true ↔
      (strEndsWith (pyLower f) ".jpg" = true
       ∨ strEndsWith (pyLower f) ".jpeg" = true
       ∨ strEndsWith (pyLower f) ".heic" = true
       ∨ strEndsWith (pyLower f) ".heif" = true))
    ∧ (∀ f, strEndsWith (pyLower f) ".JPG" = false
        ∧ strEndsWith (pyLower f) ".JPEG" = false
        ∧ strEndsWith (pyLower f) ".HEIF" = false)
    ∧ photoSelected "b.HEIC" = true ∧ photoSelected "c.Jpg" = true := by
  have hJ : ∀ f : String, strEndsWith (pyLower f) ".JPG" = false :=
    fun f => strEndsWith_pyLower_upper f ".JPG" 'J'
      (by decide) (by decide) (by decide)
  have hJE : ∀ f : String, strEndsWith (pyLower f) ".JPEG" = false :=
    fun f => strEndsWith_pyLower_upper f ".JPEG" 'J'
      (by decide) (by decide) (by decide)
  have hH : ∀ f : String, strEndsWith (pyLower f) ".HEIF" = false :=
    fun f => strEndsWith_pyLower_upper f ".HEIF" 'H'
      (by decide) (by decide) (by decide)
  refine ⟨fun f => ?_, fun f => ⟨hJ f, hJE f, hH f⟩, by decide, by decide⟩
  simp [photoSelected, SUPPORTED_FORMATS, hJ f, hJE f, hH f]

/-- Counterexample to C7 as stated: the filename "a.HEIC" ends (case
sensitively) with none of the extensions in the configured tuple, yet the
orchestrator selects it, because the filter lowercases the name first. -/
theorem c7_counterexample :
    photoSelected "a.HEIC" = true
    ∧ (SUPPORTED_FORMATS.all
        (fun ext => !(strEndsWith "a.HEIC" ext))) = true := by decide

/-- C7 (amended): the orchestrator matches the lowercased filename
against the configured tuple, so selection is case-insensitive: a file
ending in ".HEIC" (uppercase) is selected, and so is one ending in
".HEIF" or ".jpg", while ".png" is not. -/
theorem c7_amended_case_insensitive :
    (∀ f, photoSelected (pyLower f) = photoSelected f)
    ∧ photoSelected "a.HEIC" = true ∧ photoSelected "a.HEIF" = true
    ∧ photoSelected "a.jpg" = true ∧ photoSelected "a.png" = false :=
  ⟨photoSelected_pyLower, by decide, by decide, by decide, by decide⟩

theorem dtLe_refl (a : DateTime) : dtLe a a = true := by
  simp [dtLe]

theorem dtLe_trans (a b c : DateTime) (h1 : dtLe a b = true)
    (h2 : dtLe b c = true) : dtLe a c = true := by
  simp only [dtLe, decide_eq_true_eq] at h1 h2 ⊢
  exact le_trans h1 h2

theorem dtLe_total (a b : DateTime) : (dtLe a b || dtLe b a) = true := by
  simp only [dtLe, Bool.or_eq_true, decide_eq_true_eq]
  exact le_total _ _

/-- C8: the renderer's ordering step arranges the rows in nondecreasing
order of capture timestamp, the output is a permutation of the input
rows, and records with identical capture timestamps retain their
original relative order (stability), deterministically. -/
theorem c8_sort_is_stable_chronological :
    (∀ l : List PhotoRecord,
      (create_document_sortRows l).Pairwise
        (fun a b => dtLe a.date_taken b.date_taken = true))
    ∧ (∀ l : List PhotoRecord, (create_document_sortRows l).Perm l)
    ∧ (∀ (l : List PhotoRecord) (t : DateTime),
        (create_document_sortRows l).filter
            (fun r => decide (r.date_taken = t))
          = l.filter (fun r => decide (r.date_taken = t))) := by
  have trans2 : ∀ x y z : PhotoRecord,
      dtLe x.date_taken y.date_taken → dtLe y.date_taken z.date_taken →
      dtLe x.date_taken z.date_taken :=
    fun x y z h1 h2 => dtLe_trans _ _ _ h1 h2
  have total2 : ∀ x y : PhotoRecord,
      (dtLe x.date_taken y.date_taken || dtLe y.date_taken x.date_taken) :=
    fun x y => dtLe_total _ _
  refine ⟨?_, ?_, ?_⟩
  · intro l
    exact List.sorted_mergeSort trans2 total2 l
  · intro l
    exact List.mergeSort_perm l _
  · intro l t
    set p : PhotoRecord → Bool := fun r => decide (r.date_taken = t)
      with hp
    have hpairs : (l.filter p).Pairwise
        (fun a b => dtLe a.date_taken b.date_taken = true) := by
      apply List.pairwise_of_forall_mem_list
      intro a ha b hb
      have ha2 := (List.mem_filter.mp ha).2
      have hb2 := (List.mem_filter.mp hb).2
      simp only [hp, decide_eq_true_eq] at ha2 hb2
      rw [ha2, hb2]
      exact dtLe_refl t
    have hsub : List.Sublist (l.filter p) (create_document_sortRows l) :=
      List.sublist_mergeSort trans2 total2 hpairs (List.filter_sublist l)
    have hsub2 : List.Sublist ((l.filter p).filter p)
        ((create_document_sortRows l).filter p) := hsub.filter p
    have hself : (l.filter p).filter p = l.filter p :=
      List.filter_eq_self.mpr (fun a ha => (List.mem_filter.mp ha).2)
    rw [hself] at hsub2
    have hperm : ((create_document_sortRows l).filter p).Perm
        (l.filter p) := (List.mergeSort_perm l _).filter p
    exact (hsub2.eq_of_length hperm.length_eq.symm).symm
